import Mathlib

/-!
Shallow embedding of the dbt-test-coverage analysis core
(`src/dbt_test_coverage/coverage.py`) together with proofs about it.

The Python core is pure apart from reading the manifest file and a progress
bar; we model the manifest as an explicit value, model Python dicts as
association lists with dict update semantics (replace in place, append when
absent), model Python floats by exact rationals, and model exceptions by
`Except`.  Optional / possibly-missing attributes of heterogeneous node
objects (`contract`, `column_name`, `test_metadata`) are modelled as
`Option` fields, where `none` covers both "attribute absent" and
"attribute is None".
-/

namespace DbtCoverage

/-- Association-list lookup with Python `dict` semantics (first binding of
the key wins; keys are unique in every list built by `aset`). -/
def alookup {α : Type} : String → List (String × α) → Option α
  | _, [] => none
  | k, (k', v) :: rest => if k' = k then some v else alookup k rest

/-- Association-list update with Python `dict` assignment semantics:
replace the value in place when the key is present, append otherwise. -/
def aset {α : Type} : String → α → List (String × α) → List (String × α)
  | k, v, [] => [(k, v)]
  | k, v, (k', v') :: rest => if k' = k then (k', v) :: rest else (k', v') :: aset k v rest

/-! ### Glob matching (Python `fnmatch.fnmatch` on a POSIX system)

`fnmatch.translate` turns the pattern into a regular expression which is
then full-matched against the name.  We mirror that structure: compile the
pattern to a token list (star, question mark, character class, literal),
then match the token list against the whole name.  A `[` with no closing
`]` is a literal `[`; a class may be negated with a leading `!`; a `]`
directly after the (possibly negated) opening bracket is a member of the
class; `a-b` inside a class denotes an inclusive character range. -/

/-- Scan the characters of a class body up to the closing `]`.  Returns the
class members and the remainder of the pattern, `none` when the class is
unterminated. -/
def scanClassBody : List Char → Option (List Char × List Char)
  | [] => none
  | c :: rest =>
    if c = ']' then some ([], rest)
    else
      match scanClassBody rest with
      | none => none
      | some (stuff, rem) => some (c :: stuff, rem)

theorem scanClassBody_length :
    ∀ cs stuff rem, scanClassBody cs = some (stuff, rem) → rem.length < cs.length := by
  intro cs
  induction cs with
  | nil => intro s r h; simp [scanClassBody] at h
  | cons c rest ih =>
    intro s r h
    simp only [scanClassBody] at h
    split at h
    · injection h with h'
      injection h' with h1 h2
      subst h2
      simp
    · cases hb : scanClassBody rest with
      | none => rw [hb] at h; exact absurd h (by simp)
      | some p =>
        obtain ⟨s', r'⟩ := p
        rw [hb] at h
        injection h with h'
        injection h' with h1 h2
        subst h2
        have := ih s' r' hb
        simp
        omega

/-- Negation flag of a character class: a leading `!` negates it. -/
def classNeg (cs : List Char) : Bool := cs.head? == some '!'

/-- Class characters with the negation marker stripped. -/
def classAfterNeg (cs : List Char) : List Char :=
  if classNeg cs then cs.tail else cs

/-- Whether the first member position holds a literal `]`. -/
def classLit (cs : List Char) : Bool := (classAfterNeg cs).head? == some ']'

/-- Class characters with negation marker and literal leading `]` stripped. -/
def classTail (cs : List Char) : List Char :=
  if classLit cs then (classAfterNeg cs).tail else classAfterNeg cs

/-- Scan a full character class (the characters after the opening `[`):
an optional leading `!` negates and is not a member; a `]` right after
that is a literal member. -/
def scanClass (cs : List Char) : Option (Bool × List Char × List Char) :=
  match scanClassBody (classTail cs) with
  | none => none
  | some (stuff, rem) =>
    some (classNeg cs, (if classLit cs then ']' :: stuff else stuff), rem)

theorem scanClass_length :
    ∀ cs neg stuff rem, scanClass cs = some (neg, stuff, rem) → rem.length < cs.length + 1 := by
  intro cs neg stuff rem h
  unfold scanClass at h
  cases hb : scanClassBody (classTail cs) with
  | none => rw [hb] at h; exact absurd h (by simp)
  | some p =>
    obtain ⟨s', r'⟩ := p
    rw [hb] at h
    have hlt := scanClassBody_length (classTail cs) s' r' hb
    have h1 : (classAfterNeg cs).length ≤ cs.length := by
      unfold classAfterNeg; split <;> simp [List.length_tail]
    have h2 : (classTail cs).length ≤ (classAfterNeg cs).length := by
      unfold classTail; split <;> simp [List.length_tail]
    injection h with h'
    injection h' with ha hbc
    injection hbc with hb1 hb2
    subst hb2
    omega

/-- Glob pattern token, the analogue of one regex fragment emitted by
`fnmatch.translate`. -/
inductive GlobTok where
  | star : GlobTok
  | qmark : GlobTok
  | cls : Bool → List Char → GlobTok
  | lit : Char → GlobTok
deriving DecidableEq, Repr

/-- Compile a glob pattern to tokens, following `fnmatch.translate`. -/
def compilePat : List Char → List GlobTok
  | [] => []
  | c :: ps =>
    if c = '*' then .star :: compilePat ps
    else if c = '?' then .qmark :: compilePat ps
    else if c = '[' then
      match h : scanClass ps with
      | some (neg, stuff, rem) => .cls neg stuff :: compilePat rem
      | none => .lit '[' :: compilePat ps
    else .lit c :: compilePat ps
termination_by cs => cs.length
decreasing_by
  all_goals simp_wf
  all_goals (have h9 := scanClass_length _ _ _ _ (by assumption); omega)

/-- Membership of a character in the members of a character class: a
member list `a-b` fragment denotes an inclusive range, other characters
are literal members (a trailing `-` is literal). -/
def matchItems : List Char → Char → Bool
  | [], _ => false
  | [a], c => a = c
  | a :: '-' :: b :: rest, c => (a.val ≤ c.val ∧ c.val ≤ b.val) ∨ matchItems rest c
  | a :: rest, c => a = c ∨ matchItems rest c

/-- Match a compiled glob token list against a full character list
(anchored at both ends, as `fnmatch` full-matches its regex). -/
def tokMatch : List GlobTok → List Char → Bool
  | [], [] => true
  | [], _ :: _ => false
  | .star :: ts, [] => tokMatch ts []
  | .star :: ts, c :: s => tokMatch ts (c :: s) || tokMatch (.star :: ts) s
  | .qmark :: ts, _ :: s => tokMatch ts s
  | .qmark :: _, [] => false
  | .cls neg items :: ts, c :: s => (matchItems items c != neg) && tokMatch ts s
  | .cls _ _ :: _, [] => false
  | .lit a :: ts, c :: s => (a = c) && tokMatch ts s
  | .lit _ :: _, [] => false
termination_by ts s => (ts.length, s.length)

/-- Python `fnmatch.fnmatch(name, pattern)` (POSIX case-sensitive form). -/
def fnmatch (name pattern : String) : Bool :=
  tokMatch (compilePat pattern.data) name.data

/-! ### Data model (manifest objects consumed by `coverage.py`) -/

/-- Contract object attached to a model node (`node.contract`); the code
reads `getattr(node.contract, "enforced", False)`. -/
structure Contract where
  enforced : Bool
deriving DecidableEq, Repr

/-- Metadata of a generic test (`node.test_metadata`); the code reads
`test_metadata.kwargs` and looks up the key `"column"`. -/
structure TestMetadata where
  kwargs : List (String × String)
deriving DecidableEq, Repr

/-- Manifest node, with the attributes `coverage.py` reads.  `materialized`
is `node.config.get("materialized")` (`none` when the config has no such
key); `contract`, `column_name` and `test_metadata` are `none` when the
attribute is absent or `None`. -/
structure Node where
  name : String
  resource_type : String
  package_name : String
  original_file_path : String
  tags : List String
  materialized : Option String
  columns : List String
  contract : Option Contract
  depends_on : List String
  column_name : Option String
  test_metadata : Option TestMetadata
deriving DecidableEq, Repr

/-- Unit-test entry of the manifest (`manifest.unit_tests` values). -/
structure UnitTest where
  model : String
  package_name : String
deriving DecidableEq, Repr

/-- Loaded manifest: node-id keyed nodes plus unit tests. -/
structure Manifest where
  nodes : List (String × Node)
  unit_tests : List UnitTest
deriving DecidableEq, Repr

/-- Filter arguments of `analyze_unit_tests_and_contracts`, bundled the
same way `cli.py` bundles them into its `filters` dictionary. -/
structure FilterSpec where
  model_names : List String
  model_paths : List String
  has_tags : List String
  any_tag : Bool
  exclude_tags : List String
  test_type : String
deriving DecidableEq, Repr

/-- Per-model detail record built by the analyzer (`model_details` values). -/
structure ModelDetail where
  path : String
  unit_tests : Nat
  has_contract : Bool
  contract_enforced : Bool
  contract_issues : List String
  columns : List String
  columns_test : List (String × Bool)
  total_columns : Nat
  tested_columns : Nat
  coverage_pct : ℚ
  unit_test_pct : ℚ
deriving DecidableEq, Repr

/-- One record of `contract_stats["contract_issues"]`. -/
structure ContractIssue where
  model : String
  issues : List String
deriving DecidableEq, Repr

/-- The `unit_test_stats` dictionary. -/
structure UnitTestStats where
  total_models : Nat
  models_with_unit_tests : Nat
deriving DecidableEq, Repr

/-- The `contract_stats` dictionary. -/
structure ContractStats where
  with_contracts : Nat
  without_contracts : Nat
  contract_issues : List ContractIssue
deriving DecidableEq, Repr

/-! ### Filter Evaluator (`_passes_filters`)

The Python function is a chain of early `return False` checks; we embed
each check as a named rule and conjoin them in the same order, which yields
the same boolean result. -/

/-- Rule 1 of `_passes_filters`: when `model_names` is non-empty the node
name must glob-match at least one pattern. -/
def nameRulePass (node : Node) (spec : FilterSpec) : Bool :=
  spec.model_names.isEmpty || spec.model_names.any (fun pat => fnmatch node.name pat)

/-- Rule 2 of `_passes_filters`: when `model_paths` is non-empty the node
file path must glob-match at least one pattern. -/
def pathRulePass (node : Node) (spec : FilterSpec) : Bool :=
  spec.model_paths.isEmpty ||
    spec.model_paths.any (fun pat => fnmatch node.original_file_path pat)

/-- Tag-inclusion rule of `_passes_filters`: with `any_tag` set the node's
tags must intersect `has_tags` (`set(has_tags).intersection(node_tags)`),
otherwise `has_tags` must be a subset of the node's tags
(`set(has_tags).issubset(node_tags)`). -/
def tagInclusionPass (node : Node) (spec : FilterSpec) : Bool :=
  spec.has_tags.isEmpty ||
    (if spec.any_tag then spec.has_tags.any (fun t => node.tags.contains t)
     else spec.has_tags.all (fun t => node.tags.contains t))

/-- Tag-exclusion rule of `_passes_filters`: reject when `exclude_tags`
intersects the node's tags. -/
def tagExclusionPass (node : Node) (spec : FilterSpec) : Bool :=
  !(spec.exclude_tags.any (fun t => node.tags.contains t))

/-- Test-type rule of `_passes_filters`: only constrains nodes with
`resource_type == "test"` when `test_type != "all"`; a test is "generic"
when it carries `test_metadata`. -/
def testTypePass (node : Node) (spec : FilterSpec) : Bool :=
  if node.resource_type = "test" ∧ spec.test_type ≠ "all" then
    let is_generic_test := node.test_metadata.isSome
    if spec.test_type = "singular" ∧ is_generic_test then false
    else if spec.test_type = "generic" ∧ ¬is_generic_test then false
    else true
  else true

/-- Python `_passes_filters(node, ...)`: the conjunction of the five rules
in source order. -/
def _passes_filters (node : Node) (spec : FilterSpec) : Bool :=
  nameRulePass node spec && pathRulePass node spec && tagInclusionPass node spec &&
    tagExclusionPass node spec && testTypePass node spec

/-! ### Manifest loading (`_load_manifest`, `exceptions.py`) -/

/-- Exception taxonomy of `exceptions.py` relevant to the analysis entry
point. -/
inductive CoverageError where
  | manifestNotFound : String → CoverageError
  | invalidManifest : String → CoverageError
deriving DecidableEq, Repr

/-- Outcome of reading and parsing the manifest file, i.e. the behavior of
the external collaborators `json.load` and `Manifest.from_dict`: the
content is invalid JSON, rejected by dbt schema validation
(`DbtRuntimeError`), or a structured manifest. -/
inductive ManifestContent where
  | jsonDecodeError : String → ManifestContent
  | dbtRuntimeError : String → ManifestContent
  | ok : Manifest → ManifestContent
deriving DecidableEq, Repr

/-- Python `_load_manifest`: raise `ManifestNotFoundError` when the path
does not exist, and translate both parse failures to
`InvalidManifestError`. -/
def _load_manifest (pathExists : Bool) (content : ManifestContent)
    (manifest_path : String) : Except CoverageError Manifest :=
  if !pathExists then
    .error (.manifestNotFound ("Manifest not found: " ++ manifest_path))
  else
    match content with
    | .jsonDecodeError e => .error (.invalidManifest ("Invalid JSON in manifest: " ++ e))
    | .dbtRuntimeError e => .error (.invalidManifest ("Failed to parse manifest: " ++ e))
    | .ok m => .ok m

/-! ### Coverage Analyzer (`analyze_unit_tests_and_contracts`) -/

/-- The three result structures accumulated by the model-processing loop. -/
structure AnalysisState where
  unit_test_stats : UnitTestStats
  contract_stats : ContractStats
  model_details : List (String × ModelDetail)
deriving DecidableEq, Repr

/-- Initial accumulators (lines 30–32 of `coverage.py`). -/
def initState : AnalysisState :=
  { unit_test_stats := { total_models := 0, models_with_unit_tests := 0 }
    contract_stats := { with_contracts := 0, without_contracts := 0, contract_issues := [] }
    model_details := [] }

/-- Number of unit tests targeting the model: length of the comprehension
at lines 61–65 of `coverage.py`. -/
def countUnitTests (m : Manifest) (package_name name : String) : Nat :=
  (m.unit_tests.filter
    (fun t => t.model == name && t.package_name == package_name)).length

/-- Python `has_contract`: `hasattr(node, "contract") and node.contract is
not None`. -/
def nodeHasContract (node : Node) : Bool := node.contract.isSome

/-- Python `contract_enforced`: `has_contract and getattr(node.contract,
"enforced", False)`. -/
def nodeContractEnforced (node : Node) : Bool :=
  nodeHasContract node && ((node.contract.map Contract.enforced).getD false)

/-- The per-model `contract_issues` list built at lines 70–73 of
`coverage.py`. -/
def nodeContractIssues (node : Node) : List String :=
  if nodeHasContract node && !nodeContractEnforced node then
    ["Contract not enforced"]
  else []

/-- The `ModelDetail` literal assigned at lines 75–87 of `coverage.py`
(note: the source stores `contract_enforced` into both the
`has_contract` and the `contract_enforced` fields). -/
def buildDetail (node : Node) (unitTestCount : Nat) : ModelDetail :=
  { path := node.original_file_path
    unit_tests := unitTestCount
    has_contract := nodeContractEnforced node
    contract_enforced := nodeContractEnforced node
    contract_issues := nodeContractIssues node
    columns := node.columns
    columns_test := node.columns.foldl (fun acc col => aset col false acc) []
    total_columns := node.columns.length
    tested_columns := 0
    coverage_pct := 0
    unit_test_pct := if unitTestCount > 0 then 100 else 0 }

/-- Guard of the model-processing loop (lines 52–56): model resource type,
target package, not ephemeral-materialized. -/
def modelGuard (package_name : String) (node : Node) : Bool :=
  node.resource_type == "model" && node.package_name == package_name &&
    node.materialized != some "ephemeral"

/-- One iteration of the model-processing loop (lines 51–101): insert the
detail record and update both stats dictionaries.  Mirrors the source
exactly, including the placement of the `contract_issues` append inside
the `if contract_enforced` branch. -/
def processNode (m : Manifest) (package_name : String) (st : AnalysisState)
    (node : Node) : AnalysisState :=
  if modelGuard package_name node then
    let unitTestCount := countUnitTests m package_name node.name
    let contract_enforced := nodeContractEnforced node
    let contract_issues := nodeContractIssues node
    { unit_test_stats :=
        { total_models := st.unit_test_stats.total_models + 1
          models_with_unit_tests :=
            st.unit_test_stats.models_with_unit_tests +
              (if unitTestCount > 0 then 1 else 0) }
      contract_stats :=
        if contract_enforced then
          { st.contract_stats with
            with_contracts := st.contract_stats.with_contracts + 1
            contract_issues :=
              if !contract_issues.isEmpty then
                st.contract_stats.contract_issues ++
                  [{ model := node.name, issues := contract_issues }]
              else st.contract_stats.contract_issues }
        else
          { st.contract_stats with
            without_contracts := st.contract_stats.without_contracts + 1 }
      model_details := aset node.name (buildDetail node unitTestCount) st.model_details }
  else st

/-! ### Column-Test Cross-Referencer (`_analyze_column_tests`) -/

/-- The `"column"` kwarg of a generic test's metadata, when the metadata is
present and carries that key (lines 200–202). -/
def metaColSignal (t : Node) : Option String :=
  match t.test_metadata with
  | some md => alookup "column" md.kwargs
  | none => none

/-- Column signal of a test node: its `column_name` when the attribute is
present and truthy (non-empty), else the metadata `"column"` kwarg
(lines 195–202). -/
def colSignal (t : Node) : Option String :=
  match t.column_name with
  | some c => if c = "" then metaColSignal t else some c
  | none => metaColSignal t

/-- Mark one column of one model as tested: the guarded dict assignment
`model_details[name]["columns_test"][col] = True` of lines 194–204,
performed only when the model name is a key of `model_details` and the
column is a key of its `columns_test` mapping. -/
def markOne (details : List (String × ModelDetail)) (name col : String) :
    List (String × ModelDetail) :=
  match alookup name details with
  | none => details
  | some md =>
    if (alookup col md.columns_test).isSome then
      aset name { md with columns_test := aset col true md.columns_test } details
    else details

/-- Process one test node: walk its dependency list, resolve each model id
against the manifest nodes, and mark the signalled column (lines 192–204). -/
def processTestNode (nodes : List (String × Node))
    (details : List (String × ModelDetail)) (t : Node) :
    List (String × ModelDetail) :=
  t.depends_on.foldl
    (fun det model_id =>
      match alookup model_id nodes with
      | none => det
      | some model_node =>
        match colSignal t with
        | some col => markOne det model_node.name col
        | none => det)
    details

/-- Python `_analyze_column_tests`: walk every test node of the manifest
(lines 188–204). -/
def _analyze_column_tests (m : Manifest) (details : List (String × ModelDetail)) :
    List (String × ModelDetail) :=
  m.nodes.foldl
    (fun det p =>
      if p.2.resource_type == "test" then processTestNode m.nodes det p.2 else det)
    details

/-! ### Coverage statistics (`_calculate_coverage_stats`) -/

/-- Recomputation of `tested_columns` and `coverage_pct` for one model
(lines 209–215).  The `column_stats` accumulation of the source function
is local to the caller and discarded with the returned tuple, so it is
not modelled. -/
def recomputeDetail (md : ModelDetail) : ModelDetail :=
  let tested := md.columns_test.countP (fun p => p.2)
  { md with
    tested_columns := tested
    coverage_pct :=
      if md.total_columns > 0 then (tested : ℚ) / (md.total_columns : ℚ) * 100
      else 0 }

/-- Python `_calculate_coverage_stats` restricted to its effect on
`model_details`. -/
def _calculate_coverage_stats (details : List (String × ModelDetail)) :
    List (String × ModelDetail) :=
  details.map (fun p => (p.1, recomputeDetail p.2))

/-- Body of `analyze_unit_tests_and_contracts` once the manifest is loaded
(the source loads the manifest twice, at lines 25 and 49, with identical
arguments; both loads denote the same value here, so one manifest argument
serves for both passes). -/
def analyzeLoaded (m : Manifest) (package_name : String) (spec : FilterSpec) :
    UnitTestStats × ContractStats × List (String × ModelDetail) :=
  let filtered_nodes := (m.nodes.map Prod.snd).filter (fun n => _passes_filters n spec)
  let st := filtered_nodes.foldl (processNode m package_name) initState
  let details := _analyze_column_tests m st.model_details
  (st.unit_test_stats, st.contract_stats, _calculate_coverage_stats details)

/-- Python `analyze_unit_tests_and_contracts`: load the manifest, then run
the pure analysis body; a load failure propagates and no result structure
is returned. -/
def analyze_unit_tests_and_contracts (pathExists : Bool) (content : ManifestContent)
    (manifest_path package_name : String) (spec : FilterSpec) :
    Except CoverageError (UnitTestStats × ContractStats × List (String × ModelDetail)) := do
  let m ← _load_manifest pathExists content manifest_path
  pure (analyzeLoaded m package_name spec)

/-! ### Association-list lemmas -/

theorem alookup_aset_self {α : Type} (k : String) (v : α) :
    ∀ l : List (String × α), alookup k (aset k v l) = some v := by
  intro l
  induction l with
  | nil => simp [aset, alookup]
  | cons p rest ih =>
    obtain ⟨k', v'⟩ := p
    by_cases h : k' = k
    · subst h
      simp [aset, alookup]
    · simp [aset, alookup, h, ih]

theorem alookup_aset_other {α : Type} (k k' : String) (v : α) (hne : k' ≠ k) :
    ∀ l : List (String × α), alookup k' (aset k v l) = alookup k' l := by
  intro l
  induction l with
  | nil =>
    have hk : ¬(k = k') := fun h => hne h.symm
    simp [aset, alookup, hk]
  | cons p rest ih =>
    obtain ⟨k₀, v₀⟩ := p
    by_cases h : k₀ = k
    · subst h
      have hk : ¬(k₀ = k') := fun h => hne h.symm
      simp [aset, alookup, hk]
    · simp [aset, alookup, h, ih]

theorem aset_aset_self {α : Type} (k : String) (v v' : α) :
    ∀ l : List (String × α), aset k v (aset k v' l) = aset k v l := by
  intro l
  induction l with
  | nil => simp [aset]
  | cons p rest ih =>
    obtain ⟨k₀, v₀⟩ := p
    by_cases h : k₀ = k
    · subst h
      simp [aset]
    · simp [aset, h, ih]

theorem aset_aset_comm {α : Type} (k k' : String) (v v' : α) (hne : k ≠ k') :
    ∀ l : List (String × α), (alookup k l).isSome → (alookup k' l).isSome →
      aset k v (aset k' v' l) = aset k' v' (aset k v l) := by
  intro l
  induction l with
  | nil => simp [alookup]
  | cons p rest ih =>
    intro hk hk'
    obtain ⟨k₀, v₀⟩ := p
    by_cases h : k₀ = k'
    · subst h
      have hne2 : ¬(k₀ = k) := fun h => hne h.symm
      simp [aset, hne2]
    · by_cases h2 : k₀ = k
      · subst h2
        simp [aset, h]
      · simp [alookup, h2] at hk
        simp [alookup, h] at hk'
        simp [aset, h, h2, ih hk hk']

theorem aset_keys_of_mem {α : Type} (k : String) (v : α) :
    ∀ l : List (String × α), (alookup k l).isSome →
      (aset k v l).map Prod.fst = l.map Prod.fst := by
  intro l
  induction l with
  | nil => simp [alookup]
  | cons p rest ih =>
    obtain ⟨k₀, v₀⟩ := p
    by_cases h : k₀ = k
    · subst h
      simp [aset, alookup]
    · intro hm
      simp [alookup, h] at hm
      simp [aset, alookup, h, ih hm]

theorem alookup_isSome_aset {α : Type} (k k' : String) (v : α)
    (l : List (String × α)) :
    (alookup k' (aset k v l)).isSome ↔ k' = k ∨ (alookup k' l).isSome := by
  by_cases h : k' = k
  · subst h
    simp [alookup_aset_self]
  · simp [alookup_aset_other k k' v h, h]

/-! ### Tag-rule semantics -/

theorem tagInclusionPass_any_iff (node : Node) (spec : FilterSpec)
    (hne : spec.has_tags ≠ []) (ha : spec.any_tag = true) :
    (tagInclusionPass node spec = true ↔ ∃ t ∈ spec.has_tags, t ∈ node.tags) := by
  simp [tagInclusionPass, ha, List.isEmpty_iff, hne, List.any_eq_true]

theorem tagInclusionPass_all_iff (node : Node) (spec : FilterSpec)
    (hne : spec.has_tags ≠ []) (ha : spec.any_tag = false) :
    (tagInclusionPass node spec = true ↔ ∀ t ∈ spec.has_tags, t ∈ node.tags) := by
  simp [tagInclusionPass, ha, List.isEmpty_iff, hne, List.all_eq_true]

theorem passes_filters_of_exclude (node : Node) (spec : FilterSpec)
    (h : ∃ t ∈ spec.exclude_tags, t ∈ node.tags) :
    _passes_filters node spec = false := by
  have hex : tagExclusionPass node spec = false := by
    simp [tagExclusionPass, List.any_eq_true]
    exact h
  simp [_passes_filters, hex]

/-! ### Concrete fixtures used by the witnesses -/

/-- Blank filter specification: every filter disabled (the CLI defaults). -/
def specAll : FilterSpec :=
  { model_names := [], model_paths := [], has_tags := [], any_tag := false,
    exclude_tags := [], test_type := "all" }

/-- A plain model node of package `jaffle_shop` with two columns. -/
def ordersNode : Node :=
  { name := "orders", resource_type := "model", package_name := "jaffle_shop",
    original_file_path := "models/orders.sql", tags := [], materialized := some "table",
    columns := ["id", "status"], contract := none, depends_on := [],
    column_name := none, test_metadata := none }

/-- A generic test node targeting the `id` column of `ordersNode`. -/
def ordersIdTest : Node :=
  { name := "not_null_orders_id", resource_type := "test", package_name := "jaffle_shop",
    original_file_path := "tests/not_null_orders_id.sql", tags := ["tested"],
    materialized := none, columns := [], contract := none,
    depends_on := ["model.jaffle_shop.orders"], column_name := some "id",
    test_metadata := none }

/-- Manifest with one model, one column-level test and one unit test. -/
def sampleManifest : Manifest :=
  { nodes := [("model.jaffle_shop.orders", ordersNode),
              ("test.jaffle_shop.not_null_orders_id", ordersIdTest)],
    unit_tests := [{ model := "orders", package_name := "jaffle_shop" }] }

/-- A model node carrying a contract object whose enforced flag is false. -/
def unenforcedNode : Node :=
  { ordersNode with
    name := "cmodel"
    original_file_path := "models/cmodel.sql"
    contract := some { enforced := false } }

/-- Manifest containing only the unenforced-contract model. -/
def manifestUnenforced : Manifest :=
  { nodes := [("model.jaffle_shop.cmodel", unenforcedNode)], unit_tests := [] }

/-- A node with tag set `{a, b, c}` (the spec's filter-correctness fixture). -/
def taggedNode : Node := { ordersNode with tags := ["a", "b", "c"] }

/-- A node with the single tag `a`. -/
def tagANode : Node := { ordersNode with tags := ["a"] }

/-- Spec with `any_tag` set and `has_tags = [a, b]`. -/
def specAnySet : FilterSpec := { specAll with has_tags := ["a", "b"], any_tag := true }

/-- Spec with `any_tag` unset and `has_tags = [x, a]`. -/
def specAnyUnset : FilterSpec := { specAll with has_tags := ["x", "a"], any_tag := false }

/-- Spec with `has_tags = [a, b]`, `any_tag` unset and `exclude_tags = [c]`. -/
def specExcludeC : FilterSpec :=
  { specAll with has_tags := ["a", "b"], any_tag := false, exclude_tags := ["c"] }

/-- Fallback detail used by `Option.getD` in the witnesses. -/
def dummyDetail : ModelDetail :=
  { path := "", unit_tests := 0, has_contract := false, contract_enforced := false,
    contract_issues := [], columns := [], columns_test := [], total_columns := 0,
    tested_columns := 0, coverage_pct := 0, unit_test_pct := 0 }

/-! ### Claims -/

/-- C1: the claim says a processed model whose contract has `enforced =
false` is counted under `without_contracts` and that exactly one record
`{model, issues: ["Contract not enforced"]}` is appended to
`contract_stats.contract_issues`.  The code counts it under
`without_contracts` but appends nothing to `contract_stats.contract_issues`:
the append sits inside the `if contract_enforced` branch (lines 94–99 of
`coverage.py`) where the per-model issue list is always empty, so it is
dead code.  This theorem evaluates the embedded code at the failing input:
the aggregate issue list stays empty while the per-model detail does carry
the issue text. -/
theorem claim_C1_code_divergence :
    (analyzeLoaded manifestUnenforced "jaffle_shop" specAll).2.1 =
      { with_contracts := 0, without_contracts := 1, contract_issues := [] } ∧
    (alookup "cmodel" (analyzeLoaded manifestUnenforced "jaffle_shop" specAll).2.2).map
      ModelDetail.contract_issues = some ["Contract not enforced"] := by
  exact ⟨rfl, by rfl⟩

/-- C2: with non-empty `has_tags`, `any_tag = true` gives ANY semantics
(accepted iff the node's tags intersect `has_tags`), `any_tag = false`
gives ALL semantics (accepted iff `has_tags` is a subset of the node's
tags); independently, a node whose tags intersect `exclude_tags` is
rejected by the filter regardless of the inclusion rules. -/
theorem claim_C2_tag_filter_semantics (node : Node) (spec : FilterSpec)
    (hne : spec.has_tags ≠ []) :
    (spec.any_tag = true →
      (tagInclusionPass node spec = true ↔ ∃ t ∈ spec.has_tags, t ∈ node.tags)) ∧
    (spec.any_tag = false →
      (tagInclusionPass node spec = true ↔ ∀ t ∈ spec.has_tags, t ∈ node.tags)) ∧
    ((∃ t ∈ spec.exclude_tags, t ∈ node.tags) → _passes_filters node spec = false) :=
  ⟨fun ha => tagInclusionPass_any_iff node spec hne ha,
   fun ha => tagInclusionPass_all_iff node spec hne ha,
   fun h => passes_filters_of_exclude node spec h⟩

/-- Witness for C2 at the spec's own fixture: tags `{a,b,c}` with
`has_tags = [a,b]`, `any_tag = false`, `exclude_tags = [c]`. -/
theorem claim_C2_witness :
    (specExcludeC.any_tag = true →
      (tagInclusionPass taggedNode specExcludeC = true ↔
        ∃ t ∈ specExcludeC.has_tags, t ∈ taggedNode.tags)) ∧
    (specExcludeC.any_tag = false →
      (tagInclusionPass taggedNode specExcludeC = true ↔
        ∀ t ∈ specExcludeC.has_tags, t ∈ taggedNode.tags)) ∧
    ((∃ t ∈ specExcludeC.exclude_tags, t ∈ taggedNode.tags) →
      _passes_filters taggedNode specExcludeC = false) :=
  claim_C2_tag_filter_semantics taggedNode specExcludeC (by decide)

/-- C3 counterexample: the claim says that with `any_tag` set the filter
performs ALL/subset matching and with it unset ANY/intersection matching.
At the node with tag set `{a}`: with `any_tag` set and `has_tags = [a,b]`
the node passes although `has_tags` is not a subset of its tags, and with
`any_tag` unset and `has_tags = [x,a]` the node is rejected although the
tag sets intersect — both directions of the claimed inversion are false. -/
theorem claim_C3_counterexample :
    (_passes_filters tagANode specAnySet = true ∧
      ¬(∀ t ∈ specAnySet.has_tags, t ∈ tagANode.tags)) ∧
    (_passes_filters tagANode specAnyUnset = false ∧
      (∃ t ∈ specAnyUnset.has_tags, t ∈ tagANode.tags)) := by
  decide

/-- C3 (amended): the `any_tag` flag's boolean sense agrees with its CLI
help text ("match ANY instead of ALL ... default is ALL if flag not set"):
when the flag is set the filter performs ANY/intersection matching and
when unset ALL/subset matching.  Only the code's internal comments
(the `# ANY mode` comment and the docstring) are mislabeled. -/
theorem claim_C3_amended_any_tag_sense (node : Node) (spec : FilterSpec)
    (hne : spec.has_tags ≠ []) :
    (spec.any_tag = true →
      (tagInclusionPass node spec = true ↔ ∃ t ∈ spec.has_tags, t ∈ node.tags)) ∧
    (spec.any_tag = false →
      (tagInclusionPass node spec = true ↔ ∀ t ∈ spec.has_tags, t ∈ node.tags)) :=
  ⟨tagInclusionPass_any_iff node spec hne, tagInclusionPass_all_iff node spec hne⟩

/-- Witness for the amended C3 at the node with tag set `{a}` and
`has_tags = [a,b]` with `any_tag` set. -/
theorem claim_C3_witness :
    (specAnySet.any_tag = true →
      (tagInclusionPass tagANode specAnySet = true ↔
        ∃ t ∈ specAnySet.has_tags, t ∈ tagANode.tags)) ∧
    (specAnySet.any_tag = false →
      (tagInclusionPass tagANode specAnySet = true ↔
        ∀ t ∈ specAnySet.has_tags, t ∈ tagANode.tags)) :=
  claim_C3_amended_any_tag_sense tagANode specAnySet (by decide)

/-! ### Frame machinery for the cross-referencer

`detailShape` forgets exactly the data the cross-referencer may change:
the boolean values of `columns_test`.  Preservation of `detailsShape` is
therefore the frame property: key sets, `columns_test` key lists, and all
other fields are untouched. -/

/-- A detail record with its `columns_test` values forgotten (all reset to
false); everything the cross-referencer must not change. -/
def detailShape (a : ModelDetail) : ModelDetail :=
  { a with columns_test := a.columns_test.map (fun p => (p.1, false)) }

/-- A details map with all `columns_test` values forgotten. -/
def detailsShape (d : List (String × ModelDetail)) : List (String × ModelDetail) :=
  d.map (fun p => (p.1, detailShape p.2))

theorem alookup_map_snd {α β : Type} (f : α → β) (k : String) :
    ∀ l : List (String × α),
      alookup k (l.map (fun p => (p.1, f p.2))) = (alookup k l).map f := by
  intro l
  induction l with
  | nil => simp [alookup]
  | cons p rest ih =>
    obtain ⟨k₀, v₀⟩ := p
    by_cases h : k₀ = k
    · subst h
      simp [alookup]
    · simp [alookup, h, ih]

theorem map_snd_aset {α β : Type} (f : α → β) (k : String) (v : α) :
    ∀ l : List (String × α),
      (aset k v l).map (fun p => (p.1, f p.2)) =
        aset k (f v) (l.map (fun p => (p.1, f p.2))) := by
  intro l
  induction l with
  | nil => simp [aset]
  | cons p rest ih =>
    obtain ⟨k₀, v₀⟩ := p
    by_cases h : k₀ = k
    · subst h
      simp [aset]
    · simp [aset, h, ih]

theorem aset_lookup_unchanged {α : Type} (k : String) (v : α) :
    ∀ l : List (String × α), alookup k l = some v → aset k v l = l := by
  intro l
  induction l with
  | nil => simp [alookup]
  | cons p rest ih =>
    obtain ⟨k₀, v₀⟩ := p
    by_cases h : k₀ = k
    · subst h
      simp [alookup, aset]
      intro hv
      exact hv.symm
    · simp [alookup, aset, h]
      exact ih

/-- The atomic mark operation does not change the shape of the details
map. -/
theorem markOne_shape (det : List (String × ModelDetail)) (n c : String) :
    detailsShape (markOne det n c) = detailsShape det := by
  unfold markOne
  cases hl : alookup n det with
  | none => rfl
  | some md =>
    by_cases hc : (alookup c md.columns_test).isSome
    · simp only [hc, if_true]
      unfold detailsShape
      rw [map_snd_aset]
      have hshape : detailShape { md with columns_test := aset c true md.columns_test } =
          detailShape md := by
        unfold detailShape
        obtain ⟨b, hb⟩ := Option.isSome_iff_exists.mp hc
        have hms : (aset c true md.columns_test).map (fun p => (p.1, false)) =
            aset c false (md.columns_test.map (fun p => (p.1, false))) := by
          simpa using map_snd_aset (fun _ => false) c true md.columns_test
        rw [hms]
        have hlk : alookup c (md.columns_test.map (fun p => (p.1, false))) = some false := by
          simpa [hb] using alookup_map_snd (fun _ => false) c md.columns_test
        rw [aset_lookup_unchanged c false _ hlk]
      rw [hshape]
      have hlk2 : alookup n (det.map (fun p => (p.1, detailShape p.2))) =
          some (detailShape md) := by
        rw [alookup_map_snd]
        simp [hl]
      exact aset_lookup_unchanged n (detailShape md) _ hlk2
    · simp [hc]

/-- A fold whose steps preserve an observation preserves it overall. -/
theorem foldl_preserves {α β γ : Type} (g : α → γ) (f : α → β → α)
    (h : ∀ x b, g (f x b) = g x) :
    ∀ (l : List β) (x : α), g (l.foldl f x) = g x := by
  intro l
  induction l with
  | nil => intro x; rfl
  | cons b rest ih =>
    intro x
    simp only [List.foldl_cons]
    rw [ih, h]

theorem processTestNode_shape (nodes : List (String × Node)) (t : Node)
    (det : List (String × ModelDetail)) :
    detailsShape (processTestNode nodes det t) = detailsShape det := by
  unfold processTestNode
  apply foldl_preserves detailsShape
  intro det' model_id
  cases alookup model_id nodes with
  | none => rfl
  | some model_node =>
    cases colSignal t with
    | none => rfl
    | some col => exact markOne_shape det' model_node.name col

/-- Shape preservation for the whole cross-reference pass. -/
theorem analyze_column_tests_shape (m : Manifest) (d : List (String × ModelDetail)) :
    detailsShape (_analyze_column_tests m d) = detailsShape d := by
  unfold _analyze_column_tests
  apply foldl_preserves detailsShape
  intro det p
  by_cases ht : p.2.resource_type == "test"
  · simp only [ht, if_true]
    exact processTestNode_shape m.nodes p.2 det
  · simp [ht]

/-- C8: the Column-Test Cross-Referencer only flips `columns_test`
booleans of entries already present: the ordered key list of
`model_details` is unchanged, and for every model name the looked-up
detail record is unchanged up to `columns_test` values (so the
`columns_test` key list and all other fields — path, unit_tests, the
contract fields, columns, total_columns — are unchanged, and no record
appears for a name that was not already a key). -/
theorem claim_C8_cross_referencer_frame (m : Manifest) (d : List (String × ModelDetail)) :
    ((_analyze_column_tests m d).map Prod.fst = d.map Prod.fst) ∧
    (∀ name, (alookup name (_analyze_column_tests m d)).map detailShape =
      (alookup name d).map detailShape) := by
  have h := analyze_column_tests_shape m d
  constructor
  · have h2 := congrArg (List.map Prod.fst) h
    simpa [detailsShape, List.map_map, Function.comp] using h2
  · intro name
    have h2 := congrArg (alookup name) h
    simpa [detailsShape, alookup_map_snd] using h2

/-! ### Lookups through the pipeline -/

theorem alookup_detailsShape (k : String) (d : List (String × ModelDetail)) :
    alookup k (detailsShape d) = (alookup k d).map detailShape :=
  alookup_map_snd detailShape k d

/-- Lookup after the cross-reference pass, observed up to shape. -/
theorem mark_lookup_shape (m : Manifest) (d : List (String × ModelDetail)) (name : String) :
    (alookup name (_analyze_column_tests m d)).map detailShape =
      (alookup name d).map detailShape := by
  have h := congrArg (alookup name) (analyze_column_tests_shape m d)
  simpa [alookup_detailsShape] using h

theorem alookup_calculate (k : String) (d : List (String × ModelDetail)) :
    alookup k (_calculate_coverage_stats d) = (alookup k d).map recomputeDetail :=
  alookup_map_snd recomputeDetail k d

/-- `modelGuard` failing makes the model-processing step a no-op. -/
theorem processNode_guard_false (m : Manifest) (pkg : String) (st : AnalysisState)
    (node : Node) (hg : ¬ modelGuard pkg node = true) :
    processNode m pkg st node = st := by
  simp [processNode, hg]

/-- Invariant propagation through the model-processing fold: every stored
detail record is a `buildDetail`, so any property of all `buildDetail`
values holds of all stored records. -/
theorem fold_processNode_invariant (P : ModelDetail → Prop)
    (hP : ∀ node cnt, P (buildDetail node cnt)) (m : Manifest) (pkg : String) :
    ∀ (l : List Node) (st : AnalysisState),
      (∀ name md, alookup name st.model_details = some md → P md) →
      ∀ name md,
        alookup name (l.foldl (processNode m pkg) st).model_details = some md → P md := by
  intro l
  induction l with
  | nil => intro st h; exact h
  | cons node rest ih =>
    intro st h
    simp only [List.foldl_cons]
    apply ih
    intro name md hmd
    by_cases hg : modelGuard pkg node = true
    · simp only [processNode, hg, if_true] at hmd
      by_cases hn : name = node.name
      · subst hn
        rw [alookup_aset_self] at hmd
        injection hmd with hmd'
        subst hmd'
        exact hP node _
      · rw [alookup_aset_other _ _ _ hn] at hmd
        exact h name md hmd
    · rw [processNode_guard_false m pkg st node hg] at hmd
      exact h name md hmd

/-- C10: in every returned `ModelDetail` the `has_contract` field equals
the `contract_enforced` field (the source stores `contract_enforced` into
both); consequently a model with an unenforced contract object reports
`has_contract = false` exactly as a model with no contract object at all,
and the two cases are distinguished in the detail record only by
`contract_issues` being `["Contract not enforced"]` versus empty. -/
theorem claim_C10_has_contract_eq_enforced :
    (∀ (m : Manifest) (pkg : String) (spec : FilterSpec) (name : String) (md : ModelDetail),
      alookup name (analyzeLoaded m pkg spec).2.2 = some md →
        md.has_contract = md.contract_enforced) ∧
    (∀ (node : Node) (cnt : Nat), node.contract = some { enforced := false } →
      (buildDetail node cnt).has_contract = false ∧
        (buildDetail node cnt).contract_issues = ["Contract not enforced"]) ∧
    (∀ (node : Node) (cnt : Nat), node.contract = none →
      (buildDetail node cnt).has_contract = false ∧
        (buildDetail node cnt).contract_issues = []) := by
  refine ⟨?_, ?_, ?_⟩
  · intro m pkg spec name md h
    simp only [analyzeLoaded] at h
    rw [alookup_calculate] at h
    obtain ⟨md₀, hmd₀, heq⟩ := Option.map_eq_some'.mp h
    have hshape := mark_lookup_shape m
      (((m.nodes.map Prod.snd).filter (fun n => _passes_filters n spec)).foldl
        (processNode m pkg) initState).model_details name
    rw [hmd₀] at hshape
    cases hl : alookup name
        (((m.nodes.map Prod.snd).filter (fun n => _passes_filters n spec)).foldl
          (processNode m pkg) initState).model_details with
    | none => rw [hl] at hshape; exact absurd hshape (by simp)
    | some md₁ =>
      rw [hl] at hshape
      have hsh : detailShape md₀ = detailShape md₁ := by
        simpa using hshape
      have h1 : md₁.has_contract = md₁.contract_enforced := by
        refine fold_processNode_invariant
          (fun x => x.has_contract = x.contract_enforced) ?_ m pkg _ initState ?_ name md₁ hl
        · intro node cnt; rfl
        · intro name' md' h'
          simp [initState, alookup] at h'
      have h2 : md₀.has_contract = md₁.has_contract := by
        have := congrArg ModelDetail.has_contract hsh
        simpa [detailShape] using this
      have h3 : md₀.contract_enforced = md₁.contract_enforced := by
        have := congrArg ModelDetail.contract_enforced hsh
        simpa [detailShape] using this
      subst heq
      simpa [recomputeDetail, h2, h3] using h1
  · intro node cnt hc
    constructor
    · simp [buildDetail, nodeContractEnforced, nodeHasContract, hc]
    · simp [buildDetail, nodeContractIssues, nodeContractEnforced, nodeHasContract, hc]
  · intro node cnt hc
    constructor
    · simp [buildDetail, nodeContractEnforced, nodeHasContract, hc]
    · simp [buildDetail, nodeContractIssues, nodeContractEnforced, nodeHasContract, hc]

/-- Detail record of the unenforced-contract model as the program
computes it. -/
def w10md : ModelDetail :=
  (alookup "cmodel" (analyzeLoaded manifestUnenforced "jaffle_shop" specAll).2.2).getD
    dummyDetail

/-- Witness for C10: the computed record of the unenforced-contract model
and the two `buildDetail` cases at concrete nodes. -/
theorem claim_C10_witness :
    w10md.has_contract = w10md.contract_enforced ∧
    (buildDetail unenforcedNode 0).has_contract = false ∧
    (buildDetail unenforcedNode 0).contract_issues = ["Contract not enforced"] ∧
    (buildDetail ordersNode 0).has_contract = false ∧
    (buildDetail ordersNode 0).contract_issues = [] :=
  ⟨claim_C10_has_contract_eq_enforced.1 manifestUnenforced "jaffle_shop" specAll
      "cmodel" w10md rfl,
   (claim_C10_has_contract_eq_enforced.2.1 unenforcedNode 0 rfl).1,
   (claim_C10_has_contract_eq_enforced.2.1 unenforcedNode 0 rfl).2,
   (claim_C10_has_contract_eq_enforced.2.2 ordersNode 0 rfl).1,
   (claim_C10_has_contract_eq_enforced.2.2 ordersNode 0 rfl).2⟩

/-- C5: in every returned `ModelDetail`, `tested_columns` is the number of
true values in `columns_test`, and `coverage_pct` is
`tested_columns / total_columns * 100` when `total_columns > 0` and `0`
when `total_columns = 0` (no division is performed in that case). -/
theorem claim_C5_coverage_stats (m : Manifest) (pkg : String) (spec : FilterSpec)
    (name : String) (md : ModelDetail)
    (h : alookup name (analyzeLoaded m pkg spec).2.2 = some md) :
    md.tested_columns = md.columns_test.countP (fun p => p.2) ∧
    (md.total_columns > 0 →
      md.coverage_pct = (md.tested_columns : ℚ) / (md.total_columns : ℚ) * 100) ∧
    (md.total_columns = 0 → md.coverage_pct = 0) := by
  simp only [analyzeLoaded] at h
  rw [alookup_calculate] at h
  obtain ⟨md₀, hmd₀, heq⟩ := Option.map_eq_some'.mp h
  subst heq
  refine ⟨by simp [recomputeDetail], ?_, ?_⟩
  · intro hpos
    simp only [recomputeDetail] at hpos ⊢
    rw [if_pos hpos]
  · intro hz
    simp only [recomputeDetail] at hz ⊢
    rw [if_neg (by omega)]

/-- Detail record of the `orders` model as the program computes it (two
columns, one of them tested). -/
def w5md : ModelDetail :=
  (alookup "orders" (analyzeLoaded sampleManifest "jaffle_shop" specAll).2.2).getD
    dummyDetail

/-- Witness for C5 at the sample manifest. -/
theorem claim_C5_witness :
    w5md.tested_columns = w5md.columns_test.countP (fun p => p.2) ∧
    (w5md.total_columns > 0 →
      w5md.coverage_pct = (w5md.tested_columns : ℚ) / (w5md.total_columns : ℚ) * 100) ∧
    (w5md.total_columns = 0 → w5md.coverage_pct = 0) :=
  claim_C5_coverage_stats sampleManifest "jaffle_shop" specAll "orders" w5md rfl

/-! ### Membership in the returned model details (C4) -/

theorem modelGuard_iff (pkg : String) (node : Node) :
    modelGuard pkg node = true ↔
      node.resource_type = "model" ∧ node.package_name = pkg ∧
        node.materialized ≠ some "ephemeral" := by
  simp [modelGuard, and_assoc]

theorem fold_processNode_lookup_isSome (m : Manifest) (pkg : String) :
    ∀ (l : List Node) (st : AnalysisState) (name : String),
      ((alookup name (l.foldl (processNode m pkg) st).model_details).isSome ↔
        ((alookup name st.model_details).isSome ∨
          ∃ node ∈ l, modelGuard pkg node = true ∧ node.name = name)) := by
  intro l
  induction l with
  | nil => intro st name; simp
  | cons node rest ih =>
    intro st name
    simp only [List.foldl_cons]
    rw [ih]
    by_cases hg : modelGuard pkg node = true
    · simp only [processNode, hg, if_true]
      rw [alookup_isSome_aset]
      simp only [List.exists_mem_cons_iff, hg, true_and]
      constructor
      · rintro ((h | h) | h)
        · exact Or.inr (Or.inl h.symm)
        · exact Or.inl h
        · exact Or.inr (Or.inr h)
      · rintro (h | h | h)
        · exact Or.inl (Or.inr h)
        · exact Or.inl (Or.inl h.symm)
        · exact Or.inr h
    · rw [processNode_guard_false m pkg st node hg]
      simp only [List.exists_mem_cons_iff]
      have hno : ¬(modelGuard pkg node = true ∧ node.name = name) :=
        fun hc => hg hc.1
      tauto

theorem calc_lookup_isSome (d : List (String × ModelDetail)) (name : String) :
    (alookup name (_calculate_coverage_stats d)).isSome = (alookup name d).isSome := by
  rw [alookup_calculate]
  cases alookup name d <;> rfl

theorem mark_lookup_isSome (m : Manifest) (d : List (String × ModelDetail))
    (name : String) :
    (alookup name (_analyze_column_tests m d)).isSome = (alookup name d).isSome := by
  have h := mark_lookup_shape m d name
  cases h1 : alookup name (_analyze_column_tests m d) <;>
    cases h2 : alookup name d <;> rw [h1, h2] at h <;> simp_all

/-- C4: a model name is a key of the returned `model_details` iff some
manifest node with that name is a model of the target package, is not
ephemeral-materialized, and passes the filter; and an
ephemeral-materialized node contributes nothing at all — the processing
step leaves `unit_test_stats`, `contract_stats` and `model_details`
untouched. -/
theorem claim_C4_model_details_membership (m : Manifest) (pkg : String)
    (spec : FilterSpec) (name : String) :
    ((alookup name (analyzeLoaded m pkg spec).2.2).isSome ↔
      ∃ p ∈ m.nodes, (p.2).name = name ∧ (p.2).resource_type = "model" ∧
        (p.2).package_name = pkg ∧ (p.2).materialized ≠ some "ephemeral" ∧
        _passes_filters (p.2) spec = true) ∧
    (∀ (st : AnalysisState) (node : Node), node.materialized = some "ephemeral" →
      processNode m pkg st node = st) := by
  constructor
  · simp only [analyzeLoaded]
    rw [calc_lookup_isSome, mark_lookup_isSome, fold_processNode_lookup_isSome]
    simp only [initState, alookup, Option.isSome_none, Bool.false_eq_true, false_or]
    constructor
    · rintro ⟨node, hmem, hguard, hname⟩
      obtain ⟨hmap, hpass⟩ := List.mem_filter.mp hmem
      obtain ⟨p, hp, hpn⟩ := List.mem_map.mp hmap
      obtain ⟨hrt, hpkg, hmat⟩ := (modelGuard_iff pkg node).mp hguard
      subst hpn
      exact ⟨p, hp, hname, hrt, hpkg, hmat, hpass⟩
    · rintro ⟨p, hp, hname, hrt, hpkg, hmat, hpass⟩
      refine ⟨p.2, List.mem_filter.mpr ⟨List.mem_map.mpr ⟨p, hp, rfl⟩, hpass⟩, ?_, hname⟩
      exact (modelGuard_iff pkg p.2).mpr ⟨hrt, hpkg, hmat⟩
  · intro st node h
    apply processNode_guard_false
    simp [modelGuard, h]

/-- An ephemeral-materialized model node. -/
def ephemeralNode : Node :=
  { ordersNode with name := "ephem", materialized := some "ephemeral" }

/-- Witness for C4: `orders` is a key of the sample result, and the
processing step is a no-op at a concrete ephemeral node. -/
theorem claim_C4_witness :
    (alookup "orders" (analyzeLoaded sampleManifest "jaffle_shop" specAll).2.2).isSome ∧
    processNode sampleManifest "jaffle_shop" initState ephemeralNode = initState :=
  ⟨(claim_C4_model_details_membership sampleManifest "jaffle_shop" specAll "orders").1.mpr
      ⟨("model.jaffle_shop.orders", ordersNode), by decide, rfl, rfl, rfl,
        by decide, by decide⟩,
   (claim_C4_model_details_membership sampleManifest "jaffle_shop" specAll "orders").2
      initState ephemeralNode rfl⟩

/-! ### Filter-independence of the cross-reference pass (C6) -/

theorem foldl_filter_guarded {α β : Type} (f : α → β → α) (q : β → Bool) :
    ∀ (l : List β) (x : α),
      (l.filter q).foldl f x = l.foldl (fun x b => if q b then f x b else x) x := by
  intro l
  induction l with
  | nil => intro x; rfl
  | cons b rest ih =>
    intro x
    by_cases hq : q b
    · simp [List.filter_cons, hq, ih]
    · simp [List.filter_cons, hq, ih]

theorem foldl_congr_mem {α β : Type} (f g : α → β → α) :
    ∀ l : List β, (∀ b ∈ l, ∀ x, f x b = g x b) → ∀ x, l.foldl f x = l.foldl g x := by
  intro l
  induction l with
  | nil => intro _ x; rfl
  | cons b rest ih =>
    intro h x
    simp only [List.foldl_cons]
    rw [h b (by simp)]
    exact ih (fun b' hb' x' => h b' (by simp [hb']) x') _

/-- C6: the filter spec governs which models appear, never which test
nodes drive the column cross-reference: two filter specs that agree on
model nodes produce identical analysis results — unit-test stats,
contract stats and the entire `model_details` mapping including
`columns_test` — even when they disagree arbitrarily on test nodes. -/
theorem claim_C6_tests_not_filtered (m : Manifest) (pkg : String)
    (spec1 spec2 : FilterSpec)
    (h : ∀ p ∈ m.nodes, (p.2).resource_type = "model" →
      _passes_filters (p.2) spec1 = _passes_filters (p.2) spec2) :
    analyzeLoaded m pkg spec1 = analyzeLoaded m pkg spec2 := by
  have hfold : ((m.nodes.map Prod.snd).filter (fun n => _passes_filters n spec1)).foldl
      (processNode m pkg) initState =
      ((m.nodes.map Prod.snd).filter (fun n => _passes_filters n spec2)).foldl
        (processNode m pkg) initState := by
    rw [foldl_filter_guarded, foldl_filter_guarded]
    apply foldl_congr_mem
    intro n hn st
    obtain ⟨p, hp, hpn⟩ := List.mem_map.mp hn
    subst hpn
    by_cases hmodel : (p.2).resource_type = "model"
    · rw [h p hp hmodel]
    · have hg : ¬ modelGuard pkg p.2 = true := by
        intro hg'
        exact hmodel ((modelGuard_iff pkg p.2).mp hg').1
      have hid := processNode_guard_false m pkg st p.2 hg
      by_cases h1 : _passes_filters p.2 spec1 <;>
        by_cases h2 : _passes_filters p.2 spec2 <;> simp [h1, h2, hid]
  simp only [analyzeLoaded]
  rw [hfold]

/-- A filter spec whose `exclude_tags` hits the sample test node (tag
`tested`) but no model node. -/
def specExcludeTested : FilterSpec := { specAll with exclude_tags := ["tested"] }

/-- Witness for C6: excluding the test node's tag changes nothing — the
result (50% column coverage of `orders`) is identical with and without
the test-node-rejecting filter, although the test node itself is rejected
by the first spec and accepted by the second. -/
theorem claim_C6_witness :
    analyzeLoaded sampleManifest "jaffle_shop" specExcludeTested =
      analyzeLoaded sampleManifest "jaffle_shop" specAll ∧
    _passes_filters ordersIdTest specExcludeTested = false ∧
    _passes_filters ordersIdTest specAll = true :=
  ⟨claim_C6_tests_not_filtered sampleManifest "jaffle_shop" specExcludeTested specAll
      (by decide),
   by decide, by decide⟩

/-! ### Algebra of the mark operation (C7) -/

/-- The stored boolean of one column of one model; `none` when either key
is absent. -/
def colVal (details : List (String × ModelDetail)) (name col : String) : Option Bool :=
  (alookup name details).bind (fun md => alookup col md.columns_test)

theorem markOne_skip_absent (det : List (String × ModelDetail)) (n c : String)
    (hl : alookup n det = none) : markOne det n c = det := by
  simp [markOne, hl]

theorem markOne_skip_nocol (det : List (String × ModelDetail)) (n c : String)
    (md : ModelDetail) (hl : alookup n det = some md)
    (hc : ¬ (alookup c md.columns_test).isSome = true) : markOne det n c = det := by
  simp [markOne, hl, hc]

theorem markOne_fire (det : List (String × ModelDetail)) (n c : String)
    (md : ModelDetail) (hl : alookup n det = some md)
    (hc : (alookup c md.columns_test).isSome = true) :
    markOne det n c =
      aset n { md with columns_test := aset c true md.columns_test } det := by
  simp [markOne, hl, hc]

theorem alookup_markOne_other (det : List (String × ModelDetail)) (n c n' : String)
    (hne : n' ≠ n) : alookup n' (markOne det n c) = alookup n' det := by
  cases hl : alookup n det with
  | none => rw [markOne_skip_absent det n c hl]
  | some md =>
    by_cases hc : (alookup c md.columns_test).isSome = true
    · rw [markOne_fire det n c md hl hc]
      exact alookup_aset_other n n' _ hne det
    · rw [markOne_skip_nocol det n c md hl hc]

theorem markOne_aset_other (det : List (String × ModelDetail)) (n n' c' : String)
    (v : ModelDetail) (hne : n' ≠ n) (hpres : (alookup n det).isSome = true) :
    markOne (aset n v det) n' c' = aset n v (markOne det n' c') := by
  have hl' : alookup n' (aset n v det) = alookup n' det :=
    alookup_aset_other n n' v hne det
  cases hl2 : alookup n' det with
  | none =>
    rw [markOne_skip_absent _ n' c' (hl'.trans hl2), markOne_skip_absent det n' c' hl2]
  | some md' =>
    by_cases hc' : (alookup c' md'.columns_test).isSome = true
    · rw [markOne_fire _ n' c' md' (hl'.trans hl2) hc', markOne_fire det n' c' md' hl2 hc']
      exact aset_aset_comm n' n _ v hne det (by simp [hl2]) hpres
    · rw [markOne_skip_nocol _ n' c' md' (hl'.trans hl2) hc',
        markOne_skip_nocol det n' c' md' hl2 hc']

theorem markOne_idem (det : List (String × ModelDetail)) (n c : String) :
    markOne (markOne det n c) n c = markOne det n c := by
  cases hl : alookup n det with
  | none =>
    have e1 := markOne_skip_absent det n c hl
    rw [e1, e1]
  | some md =>
    by_cases hc : (alookup c md.columns_test).isSome = true
    · have e1 := markOne_fire det n c md hl hc
      rw [e1]
      have hl2 : alookup n (aset n { md with columns_test := aset c true md.columns_test }
          det) = some { md with columns_test := aset c true md.columns_test } :=
        alookup_aset_self n _ det
      have hc2 : (alookup c ({ md with
          columns_test := aset c true md.columns_test } : ModelDetail).columns_test).isSome
          = true := by
        simp [alookup_aset_self]
      rw [markOne_fire _ n c _ hl2 hc2]
      simp only [aset_aset_self]
    · have e1 := markOne_skip_nocol det n c md hl hc
      rw [e1, e1]

theorem markOne_comm (det : List (String × ModelDetail)) (n c n' c' : String) :
    markOne (markOne det n c) n' c' = markOne (markOne det n' c') n c := by
  by_cases hn : n = n'
  · subst hn
    by_cases hcc : c = c'
    · subst hcc; rfl
    · cases hl : alookup n det with
      | none =>
        have e1 := markOne_skip_absent det n c hl
        have e2 := markOne_skip_absent det n c' hl
        rw [e1, e2, e1]
      | some md =>
        by_cases hc : (alookup c md.columns_test).isSome = true <;>
          by_cases hc' : (alookup c' md.columns_test).isSome = true
        · -- both fire; the two column updates commute inside the record
          rw [markOne_fire det n c md hl hc, markOne_fire det n c' md hl hc']
          have hlA : alookup n (aset n { md with
              columns_test := aset c true md.columns_test } det) =
              some { md with columns_test := aset c true md.columns_test } :=
            alookup_aset_self n _ det
          have hlB : alookup n (aset n { md with
              columns_test := aset c' true md.columns_test } det) =
              some { md with columns_test := aset c' true md.columns_test } :=
            alookup_aset_self n _ det
          have hcA : (alookup c' ({ md with
              columns_test := aset c true md.columns_test } : ModelDetail).columns_test).isSome
              = true := by
            have := alookup_aset_other c c' true (fun h => hcc h.symm) md.columns_test
            simpa [this] using hc'
          have hcB : (alookup c ({ md with
              columns_test := aset c' true md.columns_test } : ModelDetail).columns_test).isSome
              = true := by
            have := alookup_aset_other c' c true hcc md.columns_test
            simpa [this] using hc
          rw [markOne_fire _ n c' _ hlA hcA, markOne_fire _ n c _ hlB hcB]
          simp only [aset_aset_self]
          have hct : aset c' true (aset c true md.columns_test) =
              aset c true (aset c' true md.columns_test) :=
            aset_aset_comm c' c true true (fun h => hcc h.symm) md.columns_test
              (by simpa using hc') (by simpa using hc)
          rw [hct]
        · -- c fires, c' does not
          rw [markOne_fire det n c md hl hc, markOne_skip_nocol det n c' md hl hc']
          have hlA : alookup n (aset n { md with
              columns_test := aset c true md.columns_test } det) =
              some { md with columns_test := aset c true md.columns_test } :=
            alookup_aset_self n _ det
          have hcA : ¬ (alookup c' ({ md with
              columns_test := aset c true md.columns_test } : ModelDetail).columns_test).isSome
              = true := by
            have := alookup_aset_other c c' true (fun h => hcc h.symm) md.columns_test
            simpa [this] using hc'
          rw [markOne_skip_nocol _ n c' _ hlA hcA, markOne_fire det n c md hl hc]
        · -- c' fires, c does not
          rw [markOne_skip_nocol det n c md hl hc, markOne_fire det n c' md hl hc']
          have hlB : alookup n (aset n { md with
              columns_test := aset c' true md.columns_test } det) =
              some { md with columns_test := aset c' true md.columns_test } :=
            alookup_aset_self n _ det
          have hcB : ¬ (alookup c ({ md with
              columns_test := aset c' true md.columns_test } : ModelDetail).columns_test).isSome
              = true := by
            have := alookup_aset_other c' c true hcc md.columns_test
            simpa [this] using hc
          rw [markOne_skip_nocol _ n c _ hlB hcB]
        · have e1 := markOne_skip_nocol det n c md hl hc
          have e2 := markOne_skip_nocol det n c' md hl hc'
          rw [e1, e2, e1]
  · -- different model names: the two marks act on disjoint entries
    have hn' : n' ≠ n := fun h => hn h.symm
    cases hl : alookup n det with
    | none =>
      have e1 := markOne_skip_absent det n c hl
      rw [e1]
      have hl2 : alookup n (markOne det n' c') = none := by
        rw [alookup_markOne_other det n' c' n hn, hl]
      rw [markOne_skip_absent _ n c hl2]
    | some md =>
      by_cases hc : (alookup c md.columns_test).isSome = true
      · rw [markOne_fire det n c md hl hc]
        rw [markOne_aset_other det n n' c' _ hn' (by simp [hl])]
        have hl2 : alookup n (markOne det n' c') = some md := by
          rw [alookup_markOne_other det n' c' n hn, hl]
        rw [markOne_fire _ n c md hl2 hc]
      · rw [markOne_skip_nocol det n c md hl hc]
        have hl2 : alookup n (markOne det n' c') = some md := by
          rw [alookup_markOne_other det n' c' n hn, hl]
        rw [markOne_skip_nocol _ n c md hl2 hc]

/-! ### Flattening the cross-reference pass into a list of mark operations -/

/-- The (model name, column) pairs one test node attempts to mark, in
dependency order; computed from the manifest and the test node alone. -/
def testOps (nodes : List (String × Node)) (t : Node) : List (String × String) :=
  t.depends_on.filterMap (fun model_id =>
    match alookup model_id nodes with
    | none => none
    | some model_node => (colSignal t).map (fun col => (model_node.name, col)))

/-- All mark attempts of the manifest's test nodes, in manifest order. -/
def manifestOps (m : Manifest) : List (String × String) :=
  (m.nodes.filter (fun p => (p.2).resource_type == "test")).bind
    (fun p => testOps m.nodes p.2)

/-- Apply a list of mark operations in order. -/
def applyOps (details : List (String × ModelDetail)) (ops : List (String × String)) :
    List (String × ModelDetail) :=
  ops.foldl (fun det op => markOne det op.1 op.2) details

theorem applyOps_append (details : List (String × ModelDetail))
    (a b : List (String × String)) :
    applyOps details (a ++ b) = applyOps (applyOps details a) b :=
  List.foldl_append _ _ a b

theorem processTestNode_eq_applyOps (nodes : List (String × Node)) (t : Node) :
    ∀ det, processTestNode nodes det t = applyOps det (testOps nodes t) := by
  unfold processTestNode testOps
  generalize colSignal t = sig
  generalize t.depends_on = l
  cases sig with
  | none =>
    induction l with
    | nil => intro det; rfl
    | cons d rest ih =>
      intro det
      simp only [List.foldl_cons, List.filterMap_cons]
      cases hd : alookup d nodes with
      | none => simp only [hd]; exact ih det
      | some mn => simp only [hd, Option.map_none']; exact ih det
  | some col =>
    induction l with
    | nil => intro det; rfl
    | cons d rest ih =>
      intro det
      simp only [List.foldl_cons, List.filterMap_cons]
      cases hd : alookup d nodes with
      | none => simp only [hd]; exact ih det
      | some mn =>
        simp only [hd, Option.map_some']
        exact ih (markOne det mn.name col)

theorem foldl_tests_eq_applyOps (nodes : List (String × Node)) :
    ∀ (l : List (String × Node)) (det : List (String × ModelDetail)),
      l.foldl (fun det p =>
        if (p.2).resource_type == "test" then processTestNode nodes det p.2 else det)
          det =
        applyOps det ((l.filter (fun p => (p.2).resource_type == "test")).bind
          (fun p => testOps nodes p.2)) := by
  intro l
  induction l with
  | nil => intro det; rfl
  | cons p rest ih =>
    intro det
    by_cases hp : ((p.2).resource_type == "test") = true
    · simp only [List.foldl_cons, List.filter_cons, hp, if_true, List.cons_bind]
      rw [applyOps_append, ← processTestNode_eq_applyOps nodes p.2 det]
      exact ih (processTestNode nodes det p.2)
    · simp only [List.foldl_cons, List.filter_cons, hp, if_false, Bool.false_eq_true]
      exact ih det

theorem analyze_column_tests_eq_applyOps (m : Manifest)
    (det : List (String × ModelDetail)) :
    _analyze_column_tests m det = applyOps det (manifestOps m) :=
  foldl_tests_eq_applyOps m.nodes m.nodes det

/-! ### Idempotence and monotonicity (C7) -/

theorem foldl_push {α β : Type} (f : α → β → α)
    (comm : ∀ x a b, f (f x a) b = f (f x b) a) :
    ∀ (l : List β) (x : α) (a : β), f (l.foldl f x) a = l.foldl f (f x a) := by
  intro l
  induction l with
  | nil => intro x a; rfl
  | cons b rest ih =>
    intro x a
    simp only [List.foldl_cons]
    rw [ih, comm]

theorem foldl_twice {α β : Type} (f : α → β → α)
    (comm : ∀ x a b, f (f x a) b = f (f x b) a)
    (idem : ∀ x a, f (f x a) a = f x a) :
    ∀ (l : List β) (x : α), l.foldl f (l.foldl f x) = l.foldl f x := by
  intro l
  induction l with
  | nil => intro x; rfl
  | cons a rest ih =>
    intro x
    simp only [List.foldl_cons]
    rw [foldl_push f comm rest (f x a) a, idem]
    exact ih (f x a)

theorem applyOps_twice (ops : List (String × String))
    (details : List (String × ModelDetail)) :
    applyOps (applyOps details ops) ops = applyOps details ops :=
  foldl_twice _ (fun x a b => markOne_comm x a.1 a.2 b.1 b.2)
    (fun x a => markOne_idem x a.1 a.2) ops details

theorem markOne_mono (det : List (String × ModelDetail)) (n c name col : String)
    (h : colVal det name col = some true) :
    colVal (markOne det n c) name col = some true := by
  by_cases hn : name = n
  · subst hn
    cases hl : alookup name det with
    | none => simp [colVal, hl] at h
    | some md =>
      by_cases hc : (alookup c md.columns_test).isSome = true
      · rw [markOne_fire det name c md hl hc]
        unfold colVal at h ⊢
        rw [hl] at h
        rw [alookup_aset_self]
        simp only [Option.some_bind] at h ⊢
        by_cases hcol : col = c
        · subst hcol
          simp [alookup_aset_self]
        · rw [alookup_aset_other c col true hcol md.columns_test]
          exact h
      · rw [markOne_skip_nocol det name c md hl hc]
        exact h
  · unfold colVal
    rw [alookup_markOne_other det n c name hn]
    exact h

theorem applyOps_mono (name col : String) :
    ∀ (ops : List (String × String)) (details : List (String × ModelDetail)),
      colVal details name col = some true →
        colVal (applyOps details ops) name col = some true := by
  intro ops
  induction ops with
  | nil => intro details h; exact h
  | cons op rest ih =>
    intro details h
    exact ih _ (markOne_mono details op.1 op.2 name col h)

/-- C7: the Column-Test Cross-Referencer is idempotent — running it twice
over the same manifest yields the same `model_details` (hence the same
`columns_test` mappings) as running it once — and monotonic: a
`columns_test` entry that is true before a run is still true after it. -/
theorem claim_C7_idempotent_monotonic (m : Manifest)
    (d : List (String × ModelDetail)) :
    _analyze_column_tests m (_analyze_column_tests m d) = _analyze_column_tests m d ∧
    (∀ name col, colVal d name col = some true →
      colVal (_analyze_column_tests m d) name col = some true) := by
  constructor
  · rw [analyze_column_tests_eq_applyOps m d,
      analyze_column_tests_eq_applyOps m (applyOps d (manifestOps m))]
    exact applyOps_twice (manifestOps m) d
  · intro name col h
    rw [analyze_column_tests_eq_applyOps m d]
    exact applyOps_mono name col (manifestOps m) d h

/-- Details map with the `id` column of `orders` already marked. -/
def preMarkedDetails : List (String × ModelDetail) :=
  [("orders", { dummyDetail with
      columns := ["id"], columns_test := [("id", true)], total_columns := 1 })]

/-- Witness for C7 at the sample manifest and a pre-marked details map. -/
theorem claim_C7_witness :
    _analyze_column_tests sampleManifest
        (_analyze_column_tests sampleManifest preMarkedDetails) =
      _analyze_column_tests sampleManifest preMarkedDetails ∧
    colVal (_analyze_column_tests sampleManifest preMarkedDetails) "orders" "id" =
      some true :=
  ⟨(claim_C7_idempotent_monotonic sampleManifest preMarkedDetails).1,
   (claim_C7_idempotent_monotonic sampleManifest preMarkedDetails).2 "orders" "id"
      (by decide)⟩

/-! ### Error handling of the entry point (C9) -/

/-- C9: the entry point fails with `ManifestNotFoundError` exactly when
the manifest path does not exist, with `InvalidManifestError` when the
content is invalid JSON or fails dbt schema validation, and a failed run
returns no result at all: a successful return is possible only when the
path exists and the content parses, and then it carries the complete
analysis of the loaded manifest. -/
theorem claim_C9_error_handling (pathExists : Bool) (content : ManifestContent)
    (manifest_path package_name : String) (spec : FilterSpec) :
    (pathExists = false →
      analyze_unit_tests_and_contracts pathExists content manifest_path package_name
        spec = .error (.manifestNotFound ("Manifest not found: " ++ manifest_path))) ∧
    (∀ e, pathExists = true → content = .jsonDecodeError e →
      analyze_unit_tests_and_contracts pathExists content manifest_path package_name
        spec = .error (.invalidManifest ("Invalid JSON in manifest: " ++ e))) ∧
    (∀ e, pathExists = true → content = .dbtRuntimeError e →
      analyze_unit_tests_and_contracts pathExists content manifest_path package_name
        spec = .error (.invalidManifest ("Failed to parse manifest: " ++ e))) ∧
    (∀ r, analyze_unit_tests_and_contracts pathExists content manifest_path
        package_name spec = .ok r →
      pathExists = true ∧ ∃ m, content = .ok m ∧ r = analyzeLoaded m package_name spec) ∧
    (∀ m, pathExists = true → content = .ok m →
      analyze_unit_tests_and_contracts pathExists content manifest_path package_name
        spec = .ok (analyzeLoaded m package_name spec)) := by
  refine ⟨?_, ?_, ?_, ?_, ?_⟩
  · intro h
    subst h
    rfl
  · intro e h1 h2
    subst h1
    subst h2
    rfl
  · intro e h1 h2
    subst h1
    subst h2
    rfl
  · intro r h
    cases pathExists with
    | false =>
      simp [analyze_unit_tests_and_contracts, _load_manifest, Except.bind] at h
    | true =>
      cases content with
      | jsonDecodeError e =>
        simp [analyze_unit_tests_and_contracts, _load_manifest, Except.bind] at h
      | dbtRuntimeError e =>
        simp [analyze_unit_tests_and_contracts, _load_manifest, Except.bind] at h
      | ok m =>
        refine ⟨rfl, m, rfl, ?_⟩
        have h' : Except.ok (analyzeLoaded m package_name spec) = Except.ok r := h
        injection h' with h''
        exact h''.symm
  · intro m h1 h2
    subst h1
    subst h2
    rfl

/-- Witness for C9: the three failure shapes at concrete inputs, and the
success shape at a parsed manifest. -/
theorem claim_C9_witness :
    (analyze_unit_tests_and_contracts false (.ok sampleManifest) "target/manifest.json"
        "jaffle_shop" specAll =
      .error (.manifestNotFound ("Manifest not found: " ++ "target/manifest.json"))) ∧
    (analyze_unit_tests_and_contracts true (.jsonDecodeError "bad json")
        "target/manifest.json" "jaffle_shop" specAll =
      .error (.invalidManifest ("Invalid JSON in manifest: " ++ "bad json"))) ∧
    (analyze_unit_tests_and_contracts true (.dbtRuntimeError "bad schema")
        "target/manifest.json" "jaffle_shop" specAll =
      .error (.invalidManifest ("Failed to parse manifest: " ++ "bad schema"))) ∧
    (true = true ∧ ∃ m, ManifestContent.ok sampleManifest = .ok m ∧
      analyzeLoaded sampleManifest "jaffle_shop" specAll =
        analyzeLoaded m "jaffle_shop" specAll) ∧
    (analyze_unit_tests_and_contracts true (.ok sampleManifest) "target/manifest.json"
        "jaffle_shop" specAll =
      .ok (analyzeLoaded sampleManifest "jaffle_shop" specAll)) :=
  ⟨(claim_C9_error_handling false (.ok sampleManifest) "target/manifest.json"
      "jaffle_shop" specAll).1 rfl,
   (claim_C9_error_handling true (.jsonDecodeError "bad json") "target/manifest.json"
      "jaffle_shop" specAll).2.1 "bad json" rfl rfl,
   (claim_C9_error_handling true (.dbtRuntimeError "bad schema") "target/manifest.json"
      "jaffle_shop" specAll).2.2.1 "bad schema" rfl rfl,
   (claim_C9_error_handling true (.ok sampleManifest) "target/manifest.json"
      "jaffle_shop" specAll).2.2.2.1
        (analyzeLoaded sampleManifest "jaffle_shop" specAll) rfl,
   (claim_C9_error_handling true (.ok sampleManifest) "target/manifest.json"
      "jaffle_shop" specAll).2.2.2.2 sampleManifest rfl rfl⟩

end DbtCoverage
